import Mathlib

/-!
Verification development for the recmari HUD-reading core.

The definitions below are a shallow embedding of the Rust sources:
  crates/recmari-core/src/analysis/common.rs      (color model, boundary scanner)
  crates/recmari-core/src/analysis/huds/manemon/sa.rs   (special-gauge reader)
  crates/recmari-core/src/analysis/huds/manemon/od.rs   (drive-gauge reader)
  crates/recmari-core/src/pipeline.rs             (frame collection, round segmentation)

Machine floats (f32/f64) are modelled by the rational numbers; u32 values by
the natural numbers.  Loops become structural recursions with explicit state,
and early returns become Option results.
-/

namespace Recmari

/-- An 8-bit RGB pixel (each channel 0..255). -/
structure Rgb where
  r : ℕ
  g : ℕ
  b : ℕ
deriving DecidableEq

/-- HSV representation. H in [0, 360), S and V in [0, 1]. -/
structure Hsv where
  h : ℚ
  s : ℚ
  v : ℚ
deriving DecidableEq

/-- Truncation toward zero of a rational, as the Rust float-to-int cast and
the float remainder operator use. -/
def truncQ (q : ℚ) : ℤ :=
  q.num / q.den

/-- The Rust floating-point remainder a % b: a - b * trunc (a / b). -/
def rustRem (a b : ℚ) : ℚ :=
  a - b * (truncQ (a / b) : ℚ)

/-- rgb_to_hsv from analysis/common.rs: standard max/min/delta HSV conversion. -/
def rgb_to_hsv (rgb : Rgb) : Hsv :=
  let r : ℚ := rgb.r / 255
  let g : ℚ := rgb.g / 255
  let b : ℚ := rgb.b / 255
  let maxc := max r (max g b)
  let minc := min r (min g b)
  let delta := maxc - minc
  let v := maxc
  let s := if maxc > 0 then delta / maxc else 0
  let h0 :=
    if delta < 1 / 1000000 then 0
    else if |maxc - r| < 1 / 1000000 then 60 * rustRem ((g - b) / delta) 6
    else if |maxc - g| < 1 / 1000000 then 60 * ((b - r) / delta + 2)
    else 60 * ((r - g) / delta + 4)
  let h := if h0 < 0 then h0 + 360 else h0
  { h := h, s := s, v := v }

/-- Horizontal scanline defined by y coordinate and x range; x_start and
x_end are inclusive and can be in either order (analysis/common.rs). -/
structure Scanline where
  x_start : ℕ
  x_end : ℕ
  y : ℕ
deriving DecidableEq

/-- Pixel width of the scanline: the absolute difference of the endpoints. -/
def Scanline.width (sl : Scanline) : ℕ :=
  if sl.x_start ≤ sl.x_end then sl.x_end - sl.x_start else sl.x_start - sl.x_end

/-- Modelled from the spec: the Scanline position helper x_at is used by the
sources (od.rs, hp.rs, manemon/mod.rs) but its definition is not among the
given files.  Per the spec the scan direction is sign(x_end - x_start), so
sample i sits i pixels from x_start toward x_end; this coincides with the
inline position formula of find_bar_boundary in analysis/common.rs
(x_start.saturating_add_signed(i * dx), with natural subtraction saturating
at zero). -/
def Scanline.x_at (sl : Scanline) (i : ℕ) : ℕ :=
  if sl.x_start < sl.x_end then sl.x_start + i else sl.x_start - i

/-- Modelled from the spec: first endpoint of the scanline as a pixel
position, used by the OD segment checks but not defined in the given files. -/
def Scanline.first_pos (sl : Scanline) : ℕ × ℕ :=
  (sl.x_start, sl.y)

/-- Modelled from the spec: last endpoint of the scanline as a pixel
position, used by the OD segment checks but not defined in the given files. -/
def Scanline.last_pos (sl : Scanline) : ℕ × ℕ :=
  (sl.x_end, sl.y)

/-- An RGB frame: pixel dimensions plus a total pixel lookup. -/
structure Image where
  width : ℕ
  height : ℕ
  pix : ℕ → ℕ → Rgb

/-- Pixel classification for bar-fill boundary detection (analysis/common.rs). -/
inductive BarSegment where
  | Unknown
  | Foreground
  | Background
deriving DecidableEq

/-- The loop of find_bar_boundary: fuel counts the remaining samples, i is
the current sample index, prev the previous classification (initially
Foreground) and lastFg the most recent Foreground index if any.  The
fuel-zero case is the code after the loop. -/
def find_bar_boundary_go (c : ℕ → BarSegment) (w : ℕ) :
    ℕ → ℕ → BarSegment → Option ℕ → Option ℚ
  | 0, _, prev, lastFg =>
    match prev, lastFg with
    | BarSegment.Unknown, some fg => some ((fg + 1 : ℚ) / w)
    | _, _ => some 1
  | fuel + 1, i, prev, lastFg =>
    match c i with
    | BarSegment.Foreground => find_bar_boundary_go c w fuel (i + 1) BarSegment.Foreground (some i)
    | BarSegment.Unknown => find_bar_boundary_go c w fuel (i + 1) BarSegment.Unknown lastFg
    | BarSegment.Background =>
      if prev = BarSegment.Foreground then some ((i : ℚ) / w)
      else if prev = BarSegment.Unknown then
        match lastFg with
        | some fg => some ((fg + 1 : ℚ) / w)
        | none => none
      else find_bar_boundary_go c w fuel (i + 1) BarSegment.Background lastFg

/-- The classification sequence a classifier induces along a scanline. -/
def scan_class (image : Image) (sl : Scanline) (classifier : Rgb → BarSegment) (i : ℕ) :
    BarSegment :=
  classifier (image.pix (sl.x_at i) sl.y)

/-- find_bar_boundary from analysis/common.rs: walk sample positions
0..=width, classify each pixel, and return the fractional fill boundary. -/
def find_bar_boundary (image : Image) (sl : Scanline) (classifier : Rgb → BarSegment) :
    Option ℚ :=
  find_bar_boundary_go (scan_class image sl classifier) sl.width (sl.width + 1) 0
    BarSegment.Foreground none

/-! Special-gauge (SA) reader, from analysis/huds/manemon/sa.rs. -/

/-- Golden CA text overlay pixel (sa.rs is_ca_text_pixel). -/
def is_ca_text_pixel (rgb : Rgb) : Bool :=
  let hsv := rgb_to_hsv rgb
  25 ≤ hsv.h ∧ hsv.h ≤ 50 ∧ (1 : ℚ) / 2 ≤ hsv.s ∧ (3 : ℚ) / 5 ≤ hsv.v

/-- Blue interior fill of SA stock digit glyphs (sa.rs is_digit_fill_pixel). -/
def is_digit_fill_pixel (hsv : Hsv) : Bool :=
  200 ≤ hsv.h ∧ hsv.h ≤ 230 ∧ (7 : ℚ) / 10 ≤ hsv.s ∧ (7 : ℚ) / 10 ≤ hsv.v

/-- Yellow/gold outline of SA stock digit glyphs (sa.rs is_digit_outline_pixel). -/
def is_digit_outline_pixel (hsv : Hsv) : Bool :=
  55 ≤ hsv.h ∧ hsv.h ≤ 75 ∧ (1 : ℚ) / 4 ≤ hsv.s ∧ (3 : ℚ) / 4 ≤ hsv.v

/-- Clamp of an integer coordinate into [0, hi], as the Rust i32 clamp
followed by a cast back to u32. -/
def clampCoord (z : ℤ) (hi : ℤ) : ℕ :=
  ((max 0 (min z hi)).toNat)

/-- sa.rs is_sa_digit_foreground: sample the 3x3 neighborhood of (cx, cy)
with coordinates clamped into the image, and majority-vote on the digit
fill/outline classification. -/
def is_sa_digit_foreground (image : Image) (cx cy : ℕ) : Bool :=
  let offs : List ℤ := [-1, 0, 1]
  let votes := offs.flatMap (fun dy => offs.map (fun dx =>
    let x := clampCoord ((cx : ℤ) + dx) ((image.width : ℤ) - 1)
    let y := clampCoord ((cy : ℤ) + dy) ((image.height : ℤ) - 1)
    let hsv := rgb_to_hsv (image.pix x y)
    is_digit_fill_pixel hsv || is_digit_outline_pixel hsv))
  (votes.filter id).length > votes.length / 2

/-- The probe loop of classify_sa_digit: the first probe (in order) whose
3x3 neighborhood majority-votes foreground determines the digit. -/
def sa_digit_probe_loop (image : Image) : List (ℕ × ℕ) → ℕ → Option ℕ
  | [], _ => none
  | p :: rest, i =>
    if is_sa_digit_foreground image p.1 p.2 then some i
    else sa_digit_probe_loop image rest (i + 1)

/-- classify_sa_digit from sa.rs: a CA overlay (at least 2 probes reading the
CA text color) short-circuits to 3; otherwise the first foreground probe
gives the digit; no match is unreadable. -/
def classify_sa_digit (image : Image) (probes : List (ℕ × ℕ)) : Option ℕ :=
  if 2 ≤ (probes.filter (fun p => is_ca_text_pixel (image.pix p.1 p.2))).length then some 3
  else sa_digit_probe_loop image probes 0

/-- Depleted SA gauge background (sa.rs is_gauge_empty). -/
def is_gauge_empty (hsv : Hsv) : Bool :=
  215 < hsv.h ∧ hsv.h < 222 ∧ (19 : ℚ) / 20 < hsv.s ∧ (3 : ℚ) / 5 ≤ hsv.v

/-- SA gauge filled pixel (sa.rs is_gauge_sa). -/
def is_gauge_sa (hsv : Hsv) : Bool :=
  (320 ≤ hsv.h ∨ (175 ≤ hsv.h ∧ hsv.h ≤ 210)) ∧ (3 : ℚ) / 20 ≤ hsv.s ∧ (4 : ℚ) / 5 ≤ hsv.v

/-- sa.rs classify_sa_pixel: SA fill is Foreground, depleted background is
Background, anything else is Unknown. -/
def classify_sa_pixel (rgb : Rgb) : BarSegment :=
  let hsv := rgb_to_hsv rgb
  if is_gauge_sa hsv then BarSegment.Foreground
  else if is_gauge_empty hsv then BarSegment.Background
  else BarSegment.Unknown

/-- read_sa_value from sa.rs: recognize the stock digit; a digit of 3 maps
straight to 3.0 with no bar scan; otherwise add the bar fill ratio. -/
def read_sa_value (image : Image) (probes : List (ℕ × ℕ)) (sa_scan : Scanline) :
    Option ℚ :=
  match classify_sa_digit image probes with
  | none => none
  | some stock =>
    if 3 ≤ stock then some 3
    else
      match find_bar_boundary image sa_scan classify_sa_pixel with
      | none => none
      | some bar_fill => some ((stock : ℚ) + bar_fill)

/-! Drive-gauge (OD) reader, from analysis/huds/manemon/od.rs. -/

/-- Reference frame width (manemon/mod.rs REF_WIDTH). -/
def REF_WIDTH : ℕ := 1920

/-- P1 OD gauge scanline at 1920x1080, scanning right-to-left (od.rs). -/
def P1_OD_GAUGE : Scanline := { x_start := 888, x_end := 561, y := 122 }

/-- P2 OD gauge, the horizontal mirror of P1 (od.rs). -/
def P2_OD_GAUGE : Scanline :=
  { x_start := REF_WIDTH - P1_OD_GAUGE.x_start, x_end := REF_WIDTH - P1_OD_GAUGE.x_end,
    y := P1_OD_GAUGE.y }

/-- Pixel width of each OD segment (od.rs OD_SEG_WIDTH). -/
def OD_SEG_WIDTH : ℕ := 52

/-- Pixel width of each gap between OD segments (od.rs OD_GAP_WIDTH). -/
def OD_GAP_WIDTH : ℕ := 3

/-- Vertical offset to the segment ceiling border (od.rs OD_SEG_CEIL_OFFSET_Y). -/
def OD_SEG_CEIL_OFFSET_Y : ℕ := 8

/-- Vertical offset to the segment floor border (od.rs OD_SEG_FLOOR_OFFSET_Y). -/
def OD_SEG_FLOOR_OFFSET_Y : ℕ := 7

/-- Classification of a single OD segment fill state (od.rs OdSegmentState).
The ratio-carrying constructor is named Part here. -/
inductive OdSegmentState where
  | Full
  | Empty
  | Part (ratio : ℚ)
  | Unknown
deriving DecidableEq

/-- OD gauge value (analysis/mod.rs OdValue). -/
inductive OdValue where
  | Normal (q : ℚ)
  | Burnout (q : ℚ)
deriving DecidableEq

/-- Near-white border of a full OD segment (od.rs is_od_segment_full_border). -/
def is_od_segment_full_border (rgb : Rgb) : Bool :=
  let hsv := rgb_to_hsv rgb
  hsv.s < (1 : ℚ) / 4 ∧ (9 : ℚ) / 10 < hsv.v

/-- Filled background of a full OD segment: light green (gauge above 3) or
light orange (gauge at most 3) (od.rs is_od_segment_full_background). -/
def is_od_segment_full_background (rgb : Rgb) : Bool :=
  let hsv := rgb_to_hsv rgb
  (72 ≤ hsv.h ∧ hsv.h ≤ 105 ∧ (4 : ℚ) / 5 ≤ hsv.s ∧ (17 : ℚ) / 20 ≤ hsv.v) ∨
  (25 ≤ hsv.h ∧ hsv.h ≤ 35 ∧ (19 : ℚ) / 20 ≤ hsv.s ∧ (19 : ℚ) / 20 ≤ hsv.v)

/-- Partial fill border, orange family (od.rs is_partial_fill_border_orange). -/
def is_partial_fill_border_orange (hsv : Hsv) : Bool :=
  30 ≤ hsv.h ∧ hsv.h ≤ 60 ∧ (1 : ℚ) / 5 ≤ hsv.s ∧ (4 : ℚ) / 5 ≤ hsv.v

/-- Partial fill border, green family (od.rs is_partial_fill_border_green). -/
def is_partial_fill_border_green (hsv : Hsv) : Bool :=
  95 < hsv.h ∧ hsv.h < 130 ∧ (1 : ℚ) / 2 < hsv.s ∧ (4 : ℚ) / 5 < hsv.v

/-- Partial fill border, either family (od.rs is_partial_fill_border). -/
def is_partial_fill_border (hsv : Hsv) : Bool :=
  is_partial_fill_border_green hsv || is_partial_fill_border_orange hsv

/-- Partial segment background, green family (od.rs is_partial_background_green). -/
def is_partial_background_green (hsv : Hsv) : Bool :=
  110 < hsv.h ∧ hsv.h < 195 ∧ (19 : ℚ) / 20 < hsv.s ∧ (3 : ℚ) / 10 < hsv.v ∧
    hsv.v < (9 : ℚ) / 20

/-- Partial segment background, orange family (od.rs is_partial_background_orange). -/
def is_partial_background_orange (hsv : Hsv) : Bool :=
  (210 < hsv.h ∧ hsv.h < 320 ∧ (3 : ℚ) / 20 < hsv.s ∧ hsv.s < (13 : ℚ) / 20 ∧
    (3 : ℚ) / 10 < hsv.v ∧ hsv.v < (3 : ℚ) / 5) ∨
  (30 < hsv.h ∧ hsv.h < 60 ∧ (3 : ℚ) / 10 < hsv.s ∧ (3 : ℚ) / 10 < hsv.v ∧
    hsv.v < (11 : ℚ) / 20)

/-- Partial segment background, either family (od.rs is_partial_background). -/
def is_partial_background (hsv : Hsv) : Bool :=
  is_partial_background_orange hsv || is_partial_background_green hsv

/-- od.rs split_scanline_for_segments, pointwise: the scanline of segment i,
advancing OD_SEG_WIDTH + OD_GAP_WIDTH pixels per segment in scan direction. -/
def seg_scanline (od : Scanline) (i : ℕ) : Scanline :=
  if od.x_start < od.x_end then
    { x_start := od.x_start + i * (OD_SEG_WIDTH + OD_GAP_WIDTH),
      x_end := od.x_start + i * (OD_SEG_WIDTH + OD_GAP_WIDTH) + OD_SEG_WIDTH, y := od.y }
  else
    { x_start := od.x_start - i * (OD_SEG_WIDTH + OD_GAP_WIDTH),
      x_end := od.x_start - i * (OD_SEG_WIDTH + OD_GAP_WIDTH) - OD_SEG_WIDTH, y := od.y }

/-- od.rs split_scanline_for_segments: the six cached OD segment scanlines. -/
def split_scanline_for_segments (od : Scanline) : List Scanline :=
  (List.range 6).map (seg_scanline od)

/-- od.rs is_segment_full_fast: at least 3 of 4 border positions near-white,
and the segment center shows a filled background. -/
def is_segment_full_fast (image : Image) (seg_scan : Scanline) : Bool :=
  let ceil_y := seg_scan.y - OD_SEG_CEIL_OFFSET_Y
  let floor_y := seg_scan.y + OD_SEG_FLOOR_OFFSET_Y
  let center_x := (seg_scan.first_pos.1 + seg_scan.last_pos.1) / 2
  let border_positions : List (ℕ × ℕ) :=
    [seg_scan.first_pos, seg_scan.last_pos, (center_x, ceil_y), (center_x, floor_y)]
  let white_count :=
    (border_positions.filter (fun p => is_od_segment_full_border (image.pix p.1 p.2))).length
  if white_count < 3 then false
  else is_od_segment_full_background (image.pix center_x seg_scan.y)

/-- od.rs is_segment_empty_fast: at least 4 of 5 sample positions show the
dark-blue empty background. -/
def is_segment_empty_fast (image : Image) (seg_scan : Scanline) : Bool :=
  let ceil_y := seg_scan.y - OD_SEG_CEIL_OFFSET_Y
  let floor_y := seg_scan.y + OD_SEG_FLOOR_OFFSET_Y
  let center_x := (seg_scan.first_pos.1 + seg_scan.last_pos.1) / 2
  let positions : List (ℕ × ℕ) :=
    [seg_scan.first_pos, seg_scan.last_pos, (center_x, ceil_y), (center_x, floor_y),
      (center_x, seg_scan.y)]
  let blue_count :=
    (positions.filter (fun p =>
      let hsv := rgb_to_hsv (image.pix p.1 p.2)
      decide (210 < hsv.h ∧ hsv.h < 230 ∧ (9 : ℚ) / 10 < hsv.s ∧ (3 : ℚ) / 5 < hsv.v))).length
  4 ≤ blue_count

/-- The counting loop of od.rs is_segment_full: fuel-indexed walk over the
segment width, counting positions where both border rows are near-white and
the center row shows filled background, with early success at 4. -/
def is_segment_full_go (image : Image) (seg_scan : Scanline) : ℕ → ℕ → ℕ → Bool
  | 0, _, _ => false
  | fuel + 1, i, full_count =>
    let ceil_y := seg_scan.y - OD_SEG_CEIL_OFFSET_Y
    let floor_y := seg_scan.y + OD_SEG_FLOOR_OFFSET_Y
    let x := seg_scan.x_at i
    if is_od_segment_full_border (image.pix x ceil_y) &&
        is_od_segment_full_border (image.pix x floor_y) &&
        is_od_segment_full_background (image.pix x seg_scan.y) then
      if 4 ≤ full_count + 1 then true
      else is_segment_full_go image seg_scan fuel (i + 1) (full_count + 1)
    else is_segment_full_go image seg_scan fuel (i + 1) full_count

/-- od.rs is_segment_full: the exhaustive border scan over the segment. -/
def is_segment_full (image : Image) (seg_scan : Scanline) : Bool :=
  is_segment_full_go image seg_scan seg_scan.width 0 0

/-- The search loop of od.rs read_maybe_partial_segment: find the first
position whose column (center, one above, one below) matches the part-fill
border colors and whose next position matches the part background colors. -/
def read_maybe_partial_go (image : Image) (seg_scan : Scanline) : ℕ → ℕ → Option ℚ
  | 0, _ => none
  | fuel + 1, i =>
    let x := seg_scan.x_at i
    let x_hsv := rgb_to_hsv (image.pix x seg_scan.y)
    let upper_hsv := rgb_to_hsv (image.pix x (seg_scan.y - 1))
    let lower_hsv := rgb_to_hsv (image.pix x (seg_scan.y + 1))
    let next_hsv := rgb_to_hsv (image.pix (seg_scan.x_at (i + 1)) seg_scan.y)
    if is_partial_fill_border x_hsv && is_partial_fill_border upper_hsv &&
        is_partial_fill_border lower_hsv && is_partial_background next_hsv then
      some ((i : ℚ) / seg_scan.width)
    else read_maybe_partial_go image seg_scan fuel (i + 1)

/-- od.rs read_maybe_partial_segment. -/
def read_maybe_partial_segment (image : Image) (seg_scan : Scanline) : Option ℚ :=
  read_maybe_partial_go image seg_scan seg_scan.width 0

/-- od.rs classify_od_segment: the layered heuristics in priority order. -/
def classify_od_segment (image : Image) (seg_scan : Scanline) : OdSegmentState :=
  if is_segment_full_fast image seg_scan then OdSegmentState.Full
  else if is_segment_empty_fast image seg_scan then OdSegmentState.Empty
  else if is_segment_full image seg_scan then OdSegmentState.Full
  else
    match read_maybe_partial_segment image seg_scan with
    | some ratio => OdSegmentState.Part ratio
    | none => OdSegmentState.Unknown

/-- Recovered portion of the burnout gauge (od.rs is_burnout_recovered). -/
def is_burnout_recovered (hsv : Hsv) : Bool :=
  hsv.s < (1 : ℚ) / 20 ∧ (4 : ℚ) / 5 < hsv.v

/-- Unrecovered portion of the burnout gauge (od.rs is_burnout_unrecovered). -/
def is_burnout_unrecovered (hsv : Hsv) : Bool :=
  hsv.s < (3 : ℚ) / 20 ∧ hsv.v < (1 : ℚ) / 2

/-- od.rs classify_burnout_pixel. -/
def classify_burnout_pixel (rgb : Rgb) : BarSegment :=
  let hsv := rgb_to_hsv rgb
  if is_burnout_recovered hsv then BarSegment.Foreground
  else if is_burnout_unrecovered hsv then BarSegment.Background
  else BarSegment.Unknown

/-- od.rs is_burnout: sample 5 evenly-spaced points along the gauge
scanline; the gauge is in burnout when none has saturation above 0.50. -/
def is_burnout (image : Image) (od_scan : Scanline) : Bool :=
  ([1, 2, 3, 4, 5] : List ℕ).all (fun frac =>
    let i := od_scan.width * frac / 6
    let hsv := rgb_to_hsv (image.pix (od_scan.x_at i) od_scan.y)
    decide (¬ (1 : ℚ) / 2 < hsv.s))

/-- od.rs read_burnout_recovery: a successful boundary scan gives the
recovery fill, a failed scan defaults to Burnout(0.0). -/
def read_burnout_recovery (image : Image) (od_scan : Scanline) : Option OdValue :=
  match find_bar_boundary image od_scan classify_burnout_pixel with
  | some fill => some (OdValue.Burnout fill)
  | none => some (OdValue.Burnout 0)

/-- The segment walk of od.rs read_od_value: fuel counts the remaining
segments of the six, i is the current segment index, last the previous
segment state (initialized Full); the fuel-zero case is the code after the
loop. -/
def read_od_value_walk (c : ℕ → OdSegmentState) : ℕ → ℕ → OdSegmentState → Option OdValue
  | 0, _, last => if last = OdSegmentState.Full then some (OdValue.Normal 6) else none
  | fuel + 1, i, last =>
    match c i with
    | OdSegmentState.Full => read_od_value_walk c fuel (i + 1) OdSegmentState.Full
    | OdSegmentState.Empty =>
      if last = OdSegmentState.Full then some (OdValue.Normal (i : ℚ))
      else read_od_value_walk c fuel (i + 1) OdSegmentState.Empty
    | OdSegmentState.Part p => some (OdValue.Normal ((i : ℚ) + p))
    | OdSegmentState.Unknown => read_od_value_walk c fuel (i + 1) OdSegmentState.Unknown

/-- The OD gauge scanline of the selected player (od.rs read_od_value). -/
def od_scanline (player_one : Bool) : Scanline :=
  if player_one then P1_OD_GAUGE else P2_OD_GAUGE

/-- od.rs read_od_value: detect burnout first; otherwise classify the six
cached segments in order and walk them. -/
def read_od_value (image : Image) (player_one : Bool) : Option OdValue :=
  let od := od_scanline player_one
  if is_burnout image od then read_burnout_recovery image od
  else read_od_value_walk (fun i => classify_od_segment image (seg_scanline od i)) 6 0
    OdSegmentState.Full

/-! Frame collection and round segmentation, from pipeline.rs. -/

/-- Both players health at or above this counts as full (pipeline.rs
ROUND_RESET_THRESHOLD). -/
def ROUND_RESET_THRESHOLD : ℚ := 95 / 100

/-- A health value below this arms round detection (pipeline.rs
DAMAGE_THRESHOLD). -/
def DAMAGE_THRESHOLD : ℚ := 1 / 2

/-- One decoded frame as seen by collect_frame_data: its number, timestamp,
and the two per-player HP readings the HUD analyzer produced for it (None
when unreadable). -/
structure FrameInput where
  frame_number : ℕ
  timestamp_seconds : ℚ
  hp_p1 : Option ℚ
  hp_p2 : Option ℚ
deriving DecidableEq

/-- One emitted record (recmari_proto FrameData with per-player health).
The player fields are Options, mirroring the optional proto submessages. -/
structure FrameData where
  frame_number : ℕ
  timestamp_seconds : ℚ
  p1 : Option ℚ
  p2 : Option ℚ
deriving DecidableEq

/-- Option fallback, as the Rust Option::or. -/
def opt_or (a b : Option ℚ) : Option ℚ :=
  match a with
  | some x => some x
  | none => b

/-- The loop of pipeline.rs collect_frame_data: walk the decoded frames with
the last emitted per-side values and the count of emitted records as state.
A frame is emitted only when both sides have a current or carried value; the
carried values are updated only from frames that are emitted. -/
def collect_frame_data_go (sample_rate : ℕ) (max_frames : Option ℕ) :
    List FrameInput → Option ℚ → Option ℚ → ℕ → List FrameData
  | [], _, _, _ => []
  | f :: rest, last_p1, last_p2, cnt =>
    if (match max_frames with | some m => decide (m ≤ cnt) | none => false) then []
    else if max_frames = none ∧ f.frame_number % sample_rate ≠ 0 then
      collect_frame_data_go sample_rate max_frames rest last_p1 last_p2 cnt
    else
      match opt_or f.hp_p1 last_p1, opt_or f.hp_p2 last_p2 with
      | some p1, some p2 =>
        { frame_number := f.frame_number, timestamp_seconds := f.timestamp_seconds,
          p1 := some p1, p2 := some p2 } ::
          collect_frame_data_go sample_rate max_frames rest
            (if f.hp_p1.isSome then some p1 else last_p1)
            (if f.hp_p2.isSome then some p2 else last_p2) (cnt + 1)
      | _, _ => collect_frame_data_go sample_rate max_frames rest last_p1 last_p2 cnt

/-- pipeline.rs collect_frame_data, with the HUD analysis abstracted into
the per-frame readings of the input. -/
def collect_frame_data (sample_rate : ℕ) (max_frames : Option ℕ)
    (frames : List FrameInput) : List FrameData :=
  collect_frame_data_go sample_rate max_frames frames none none 0

/-- The unwrapped P1 health of a record.  collect_frame_data always emits
both sides as some, so the Rust unwrap never observes none there; the
default 0 is only a totalization. -/
def health_p1 (fd : FrameData) : ℚ :=
  fd.p1.getD 0

/-- The unwrapped P2 health of a record. -/
def health_p2 (fd : FrameData) : ℚ :=
  fd.p2.getD 0

/-- Whether a record arms round detection (pipeline.rs damage check). -/
def damagedB (fd : FrameData) : Bool :=
  decide (health_p1 fd < DAMAGE_THRESHOLD) || decide (health_p2 fd < DAMAGE_THRESHOLD)

/-- Whether a record shows both sides at or above the reset threshold. -/
def recoveredB (fd : FrameData) : Bool :=
  decide (ROUND_RESET_THRESHOLD ≤ health_p1 fd) &&
    decide (ROUND_RESET_THRESHOLD ≤ health_p2 fd)

/-- The loop of pipeline.rs split_into_rounds.  The Rust rounds vector is
represented as closed ++ [current]: pushing an empty round and appending to
the last round become closing current and growing current. -/
def split_into_rounds_go :
    List FrameData → List (List FrameData) → List FrameData → Bool → List (List FrameData)
  | [], closed, current, _ => closed ++ [current]
  | fd :: rest, closed, current, had_damage =>
    let had2 := had_damage || damagedB fd
    let is_reset := had2 && recoveredB fd
    if is_reset then split_into_rounds_go rest (closed ++ [current]) [fd] false
    else split_into_rounds_go rest closed (current ++ [fd]) had2

/-- pipeline.rs split_into_rounds: partition the records into rounds by
detecting health resets, then retain the non-empty rounds. -/
def split_into_rounds (frames : List FrameData) : List (List FrameData) :=
  if frames.isEmpty then []
  else (split_into_rounds_go frames [] [] false).filter (fun r => !r.isEmpty)

/-! Concrete sample inputs used by witnesses and counterexamples. -/

/-- A cyan pixel: SA digit fill color and P2 SA gauge fill color at once. -/
def cyanPixel : Rgb := { r := 0, g := 149, b := 255 }

/-- A small frame that is cyan everywhere. -/
def cyanImage : Image := { width := 4, height := 4, pix := fun _ _ => cyanPixel }

/-- A golden pixel in the CA text overlay color range. -/
def goldPixel : Rgb := { r := 230, g := 160, b := 40 }

/-- A small frame that is gold everywhere. -/
def goldImage : Image := { width := 4, height := 4, pix := fun _ _ => goldPixel }

/-- Four probe positions inside the small frames. -/
def quadProbes : List (ℕ × ℕ) := [(1, 1), (1, 1), (1, 1), (1, 1)]

/-- A width-2 scanline inside the small frames. -/
def shortScan : Scanline := { x_start := 0, x_end := 2, y := 0 }

/-- A second, different scanline inside the small frames. -/
def altScan : Scanline := { x_start := 1, x_end := 3, y := 2 }

/-- A frame whose red channel encodes the x coordinate. -/
def rampImage : Image := { width := 4, height := 4, pix := fun x _ => { r := x, g := 0, b := 0 } }

/-- A width-3 scanline inside the ramp frame. -/
def rampScan : Scanline := { x_start := 0, x_end := 3, y := 0 }

/-- Classifier reading the ramp frame as Foreground, Unknown, Background,
Background along rampScan. -/
def rampClassifierA (rgb : Rgb) : BarSegment :=
  if rgb.r = 0 then BarSegment.Foreground
  else if rgb.r = 1 then BarSegment.Unknown
  else BarSegment.Background

/-- Classifier reading the ramp frame as Unknown then Background with no
Foreground at all. -/
def rampClassifierB (rgb : Rgb) : BarSegment :=
  if rgb.r = 0 then BarSegment.Unknown else BarSegment.Background

/-- A 1920x1080 frame that is dark gray everywhere. -/
def grayImage : Image := { width := 1920, height := 1080, pix := fun _ _ => { r := 50, g := 50, b := 50 } }

/-- A 1920x1080 frame that is dark gray except for one brighter, slightly
tinted column at x = 888, the first P1 OD gauge sample. -/
def duskImage : Image :=
  { width := 1920, height := 1080,
    pix := fun x _ => if x = 888 then { r := 200, g := 180, b := 180 } else { r := 50, g := 50, b := 50 } }

/-- A 1920x1080 frame that is dark blue everywhere (the OD empty color). -/
def blueImage : Image := { width := 1920, height := 1080, pix := fun _ _ => { r := 10, g := 60, b := 240 } }

/-- Build a record with both health values present. -/
def mkFd (n : ℕ) (p1 p2 : ℚ) : FrameData :=
  { frame_number := n, timestamp_seconds := 0, p1 := some p1, p2 := some p2 }

/-- The concrete five-frame scenario of the round-segmentation claim. -/
def scenarioFrames : List FrameData :=
  [mkFd 0 1 1, mkFd 1 (6 / 10) (3 / 10), mkFd 2 (8 / 10) 0, mkFd 3 1 1,
    mkFd 4 (9 / 10) (8 / 10)]

/-- A frame where only P1 produced a reading. -/
def inputA : FrameInput := { frame_number := 0, timestamp_seconds := 0, hp_p1 := some 1, hp_p2 := none }

/-- A frame where only P2 produced a reading. -/
def inputB : FrameInput := { frame_number := 1, timestamp_seconds := 0, hp_p1 := none, hp_p2 := some 1 }

/-- OD segment classifications: all Unknown except a Full segment 5. -/
def tailFullSegs (i : ℕ) : OdSegmentState :=
  if i = 5 then OdSegmentState.Full else OdSegmentState.Unknown

/-- OD segment classifications: Full, then a half Part, then Empty. -/
def partAtOneSegs (i : ℕ) : OdSegmentState :=
  if i = 0 then OdSegmentState.Full
  else if i = 1 then OdSegmentState.Part (1 / 2)
  else OdSegmentState.Empty

/-- OD segment classifications: two Full segments, then Empty. -/
def emptyAtTwoSegs (i : ℕ) : OdSegmentState :=
  if i < 2 then OdSegmentState.Full else OdSegmentState.Empty

/-- OD segment classifications: all six Full. -/
def allFullSegs (_ : ℕ) : OdSegmentState := OdSegmentState.Full

/-- The predecessor state segment j sees in the walk of read_od_value: the
walk initializes its last state to Full, so segment 0 sees Full and any
later segment sees the classification of the segment before it. -/
def od_pred_state (c : ℕ → OdSegmentState) (j : ℕ) : OdSegmentState :=
  if j = 0 then OdSegmentState.Full else c (j - 1)

/-- A segment classification that makes the walk of read_od_value return:
Empty with a Full predecessor state, or any Part. -/
def od_trigger (c : ℕ → OdSegmentState) (j : ℕ) : Prop :=
  (od_pred_state c j = OdSegmentState.Full ∧ c j = OdSegmentState.Empty) ∨
  ∃ p, c j = OdSegmentState.Part p

/-! Helper lemmas about the boundary scanner loop. -/

/-- One non-returning step of the scanner state: the previous classification
becomes the current one, and a Foreground sample records its index. -/
def fbb_step (c : ℕ → BarSegment) (i : ℕ) (st : BarSegment × Option ℕ) :
    BarSegment × Option ℕ :=
  (c i, if c i = BarSegment.Foreground then some i else st.2)

/-- The scanner state after d non-returning steps starting at sample i. -/
def fbb_state (c : ℕ → BarSegment) : ℕ → ℕ → BarSegment × Option ℕ → BarSegment × Option ℕ
  | _, 0, st => st
  | i, d + 1, st => fbb_state c (i + 1) d (fbb_step c i st)

lemma fbb_go_walk (c : ℕ → BarSegment) (w : ℕ) :
    ∀ d i fuel prev lastFg,
      (∀ k, i ≤ k → k < i + d → c k ≠ BarSegment.Background) →
      find_bar_boundary_go c w (d + fuel) i prev lastFg =
        find_bar_boundary_go c w fuel (i + d) (fbb_state c i d (prev, lastFg)).1
          (fbb_state c i d (prev, lastFg)).2 := by
  intro d
  induction d with
  | zero =>
    intro i fuel prev lastFg _
    simp [fbb_state]
  | succ d ih =>
    intro i fuel prev lastFg h
    have hne : c i ≠ BarSegment.Background := h i le_rfl (by omega)
    have hfuel : d + 1 + fuel = (d + fuel) + 1 := by omega
    have h' : ∀ k, i + 1 ≤ k → k < (i + 1) + d → c k ≠ BarSegment.Background :=
      fun k hk1 hk2 => h k (by omega) (by omega)
    have hstep : fbb_state c i (d + 1) (prev, lastFg) =
        fbb_state c (i + 1) d (fbb_step c i (prev, lastFg)) := rfl
    have hidx : i + (d + 1) = (i + 1) + d := by omega
    rw [hfuel, hstep, hidx]
    cases hc : c i with
    | Foreground =>
      have : find_bar_boundary_go c w ((d + fuel) + 1) i prev lastFg =
          find_bar_boundary_go c w (d + fuel) (i + 1) BarSegment.Foreground (some i) := by
        simp [find_bar_boundary_go, hc]
      rw [this, ih (i + 1) fuel BarSegment.Foreground (some i) h']
      simp [fbb_step, hc]
    | Unknown =>
      have : find_bar_boundary_go c w ((d + fuel) + 1) i prev lastFg =
          find_bar_boundary_go c w (d + fuel) (i + 1) BarSegment.Unknown lastFg := by
        simp [find_bar_boundary_go, hc]
      rw [this, ih (i + 1) fuel BarSegment.Unknown lastFg h']
      simp [fbb_step, hc]
    | Background => exact absurd hc hne

lemma fbb_state_fst (c : ℕ → BarSegment) :
    ∀ d i st, 0 < d → (fbb_state c i d st).1 = c (i + d - 1) := by
  intro d
  induction d with
  | zero => intro i st h; omega
  | succ d ih =>
    intro i st _
    cases Nat.eq_zero_or_pos d with
    | inl h0 =>
      subst h0
      simp [fbb_state, fbb_step]
    | inr hpos =>
      have : fbb_state c i (d + 1) st = fbb_state c (i + 1) d (fbb_step c i st) := rfl
      rw [this, ih (i + 1) _ hpos]
      congr 1
      omega

lemma fbb_state_snd_none (c : ℕ → BarSegment) :
    ∀ d i st, (∀ k, i ≤ k → k < i + d → c k ≠ BarSegment.Foreground) →
      (fbb_state c i d st).2 = st.2 := by
  intro d
  induction d with
  | zero => intro i st _; rfl
  | succ d ih =>
    intro i st h
    have hne : c i ≠ BarSegment.Foreground := h i le_rfl (by omega)
    have : fbb_state c i (d + 1) st = fbb_state c (i + 1) d (fbb_step c i st) := rfl
    rw [this, ih (i + 1) _ (fun k hk1 hk2 => h k (by omega) (by omega))]
    simp [fbb_step, hne]

lemma fbb_state_snd_last (c : ℕ → BarSegment) :
    ∀ d i st m, i ≤ m → m < i + d → c m = BarSegment.Foreground →
      (∀ k, m < k → k < i + d → c k ≠ BarSegment.Foreground) →
      (fbb_state c i d st).2 = some m := by
  intro d
  induction d with
  | zero => intro i st m h1 h2; omega
  | succ d ih =>
    intro i st m h1 h2 hm hafter
    have hstep : fbb_state c i (d + 1) st = fbb_state c (i + 1) d (fbb_step c i st) := rfl
    rw [hstep]
    rcases Nat.lt_or_ge i m with hlt | hge
    · exact ih (i + 1) _ m (by omega) (by omega) hm
        (fun k hk1 hk2 => hafter k (by omega) (by omega))
    · have heq : i = m := le_antisymm h1 hge
      subst heq
      have hsnd : (fbb_step c i st).2 = some i := by simp [fbb_step, hm]
      rw [fbb_state_snd_none c d (i + 1) _
        (fun k hk1 hk2 => hafter k (by omega) (by omega)), hsnd]

lemma fbb_go_bounds (c : ℕ → BarSegment) (w : ℕ) (hw : 0 < w) :
    ∀ fuel i prev lastFg, i + fuel = w + 1 →
      (∀ fg, lastFg = some fg →
        fg < i ∧ (prev ≠ BarSegment.Foreground → fg + 1 < i)) →
      ∀ v, find_bar_boundary_go c w fuel i prev lastFg = some v → 0 ≤ v ∧ v ≤ 1 := by
  intro fuel
  induction fuel with
  | zero =>
    intro i prev lastFg hi hinv v hv
    cases prev with
    | Unknown =>
      cases lastFg with
      | none =>
        simp only [find_bar_boundary_go, Option.some.injEq] at hv
        subst hv
        norm_num
      | some fg =>
        simp only [find_bar_boundary_go, Option.some.injEq] at hv
        subst hv
        have hfg : fg + 1 < i := (hinv fg rfl).2 (by simp)
        constructor
        · positivity
        · rw [div_le_one (by positivity)]
          have : (fg : ℚ) + 1 ≤ w := by
            have : fg + 1 ≤ w := by omega
            exact_mod_cast this
          linarith
    | Foreground =>
      simp only [find_bar_boundary_go, Option.some.injEq] at hv
      subst hv
      norm_num
    | Background =>
      simp only [find_bar_boundary_go, Option.some.injEq] at hv
      subst hv
      norm_num
  | succ fuel ih =>
    intro i prev lastFg hi hinv v hv
    cases hc : c i with
    | Foreground =>
      simp only [find_bar_boundary_go, hc] at hv
      refine ih (i + 1) BarSegment.Foreground (some i) (by omega) ?_ v hv
      rintro fg ⟨rfl⟩
      exact ⟨by omega, fun hcon => absurd rfl hcon⟩
    | Unknown =>
      simp only [find_bar_boundary_go, hc] at hv
      refine ih (i + 1) BarSegment.Unknown lastFg (by omega) ?_ v hv
      intro fg hfg
      have h1 := (hinv fg hfg).1
      exact ⟨by omega, fun _ => by omega⟩
    | Background =>
      simp only [find_bar_boundary_go, hc] at hv
      by_cases hp : prev = BarSegment.Foreground
      · rw [if_pos hp] at hv
        have hv' : (i : ℚ) / w = v := Option.some.inj hv
        subst hv'
        have hiw : i ≤ w := by omega
        have hiw' : (i : ℚ) ≤ w := by exact_mod_cast hiw
        constructor
        · positivity
        · rw [div_le_one (by positivity)]
          exact hiw'
      · rw [if_neg hp] at hv
        by_cases hpu : prev = BarSegment.Unknown
        · rw [if_pos hpu] at hv
          cases hfg : lastFg with
          | none => rw [hfg] at hv; exact absurd hv (by simp)
          | some fg =>
            rw [hfg] at hv
            have hv' : ((fg : ℚ) + 1) / w = v := Option.some.inj hv
            subst hv'
            have hlt : fg + 1 < i := (hinv fg hfg).2 (hpu ▸ (by simp))
            constructor
            · positivity
            · rw [div_le_one (by positivity)]
              have : fg + 1 ≤ w := by omega
              have : (fg : ℚ) + 1 ≤ w := by exact_mod_cast this
              linarith
        · rw [if_neg hpu] at hv
          refine ih (i + 1) BarSegment.Background lastFg (by omega) ?_ v hv
          intro fg hfg
          have h1 := (hinv fg hfg).1
          exact ⟨by omega, fun _ => by omega⟩

/-- Any value the boundary scanner returns on a positive-width scanline lies
in the unit interval. -/
lemma find_bar_boundary_mem_unit (image : Image) (sl : Scanline)
    (classifier : Rgb → BarSegment) (hw : 0 < sl.width) (v : ℚ)
    (hv : find_bar_boundary image sl classifier = some v) : 0 ≤ v ∧ v ≤ 1 := by
  refine fbb_go_bounds (scan_class image sl classifier) sl.width hw (sl.width + 1) 0
    BarSegment.Foreground none (by omega) ?_ v hv
  intro fg h
  exact absurd h (by simp)

/-- C5: for every image, classifier, and in-bounds scanline of positive
width, a Some result of find_bar_boundary lies in the closed interval
[0, 1]. -/
theorem c5_boundary_in_unit_interval (image : Image) (sl : Scanline)
    (classifier : Rgb → BarSegment) (v : ℚ)
    (hx : sl.x_end ≤ image.width) (hy : sl.y < image.height) (hw : 0 < sl.width)
    (hv : find_bar_boundary image sl classifier = some v) : 0 ≤ v ∧ v ≤ 1 :=
  find_bar_boundary_mem_unit image sl classifier hw v hv

/-- C4: when the first Background sample follows an Unknown sample, the
scanner resolves to the last confirmed Foreground index plus one over the
width, and fails if no Foreground was ever seen. -/
theorem c4_unknown_then_background (image : Image) (sl : Scanline)
    (classifier : Rgb → BarSegment) (j : ℕ)
    (hj : j ≤ sl.width) (hj1 : 1 ≤ j)
    (hfirst : ∀ k, k < j → scan_class image sl classifier k ≠ BarSegment.Background)
    (hbg : scan_class image sl classifier j = BarSegment.Background)
    (hprev : scan_class image sl classifier (j - 1) = BarSegment.Unknown) :
    (∀ m, m < j → scan_class image sl classifier m = BarSegment.Foreground →
      (∀ k, m < k → k < j → scan_class image sl classifier k ≠ BarSegment.Foreground) →
      find_bar_boundary image sl classifier = some ((m + 1 : ℚ) / sl.width)) ∧
    ((∀ k, k < j → scan_class image sl classifier k ≠ BarSegment.Foreground) →
      find_bar_boundary image sl classifier = none) := by
  have hsplit : sl.width + 1 = j + (sl.width + 1 - j) := by omega
  have hwalk := fbb_go_walk (scan_class image sl classifier) sl.width j 0 (sl.width + 1 - j)
    BarSegment.Foreground none (fun k _ hk2 => hfirst k (by omega))
  have hfst : (fbb_state (scan_class image sl classifier) 0 j
      (BarSegment.Foreground, none)).1 = BarSegment.Unknown := by
    rw [fbb_state_fst (scan_class image sl classifier) j 0 _ (by omega)]
    rw [show 0 + j - 1 = j - 1 by omega]
    exact hprev
  have hfuel : sl.width + 1 - j = (sl.width - j) + 1 := by omega
  constructor
  · intro m hm hfg hlast
    have hsnd : (fbb_state (scan_class image sl classifier) 0 j
        (BarSegment.Foreground, none)).2 = some m :=
      fbb_state_snd_last (scan_class image sl classifier) j 0 _ m (by omega) (by omega) hfg
        (fun k hk1 hk2 => hlast k hk1 (by omega))
    show find_bar_boundary_go (scan_class image sl classifier) sl.width (sl.width + 1) 0
      BarSegment.Foreground none = _
    rw [hsplit, hwalk, hfst, hsnd, hfuel]
    simp only [find_bar_boundary_go, Nat.zero_add, hbg]
    norm_num
    exact fun h => nomatch h
  · intro hnofg
    have hsnd : (fbb_state (scan_class image sl classifier) 0 j
        (BarSegment.Foreground, none)).2 = none :=
      fbb_state_snd_none (scan_class image sl classifier) j 0 _
        (fun k _ hk2 => hnofg k (by omega))
    show find_bar_boundary_go (scan_class image sl classifier) sl.width (sl.width + 1) 0
      BarSegment.Foreground none = _
    rw [hsplit, hwalk, hfst, hsnd, hfuel]
    simp only [find_bar_boundary_go, Nat.zero_add, hbg]
    norm_num
    exact fun h => nomatch h

/-- C9: when no sample along the scanline classifies as Background and none
classifies as Foreground (for instance a classifier that is constantly
Unknown), the scan completes in an Unknown run with no recorded Foreground
and returns Some(1.0) rather than None. -/
theorem c9_all_unknown_gives_one (image : Image) (sl : Scanline)
    (classifier : Rgb → BarSegment)
    (hnb : ∀ k, k ≤ sl.width → scan_class image sl classifier k ≠ BarSegment.Background)
    (hnf : ∀ k, k ≤ sl.width → scan_class image sl classifier k ≠ BarSegment.Foreground) :
    find_bar_boundary image sl classifier = some 1 := by
  have hwalk := fbb_go_walk (scan_class image sl classifier) sl.width (sl.width + 1) 0 0
    BarSegment.Foreground none (fun k _ hk2 => hnb k (by omega))
  have hsnd : (fbb_state (scan_class image sl classifier) 0 (sl.width + 1)
      (BarSegment.Foreground, none)).2 = none :=
    fbb_state_snd_none (scan_class image sl classifier) (sl.width + 1) 0 _
      (fun k _ hk2 => hnf k (by omega))
  have hfst : (fbb_state (scan_class image sl classifier) 0 (sl.width + 1)
      (BarSegment.Foreground, none)).1 = BarSegment.Unknown := by
    rw [fbb_state_fst (scan_class image sl classifier) (sl.width + 1) 0 _ (by omega)]
    rw [show 0 + (sl.width + 1) - 1 = sl.width by omega]
    cases hc : scan_class image sl classifier sl.width with
    | Unknown => rfl
    | Foreground => exact absurd hc (hnf sl.width le_rfl)
    | Background => exact absurd hc (hnb sl.width le_rfl)
  show find_bar_boundary_go (scan_class image sl classifier) sl.width (sl.width + 1) 0
    BarSegment.Foreground none = _
  rw [show sl.width + 1 = (sl.width + 1) + 0 by omega, hwalk, hfst, hsnd]
  rfl

/-! Concrete evaluation lemmas for the sample inputs. -/

lemma cyan_digit_eval : classify_sa_digit cyanImage quadProbes = some 0 := by
  norm_num [classify_sa_digit, cyanImage, cyanPixel, quadProbes, is_ca_text_pixel,
    rgb_to_hsv, rustRem, truncQ, abs_lt, sa_digit_probe_loop, is_sa_digit_foreground,
    is_digit_fill_pixel, is_digit_outline_pixel, clampCoord, List.filter]

lemma gold_digit_eval : classify_sa_digit goldImage quadProbes = some 3 := by
  norm_num [classify_sa_digit, goldImage, goldPixel, quadProbes, is_ca_text_pixel,
    rgb_to_hsv, rustRem, truncQ, abs_lt, List.filter]

lemma cyan_find_eval : find_bar_boundary cyanImage shortScan classify_sa_pixel = some 1 := by
  norm_num [find_bar_boundary, find_bar_boundary_go, scan_class, classify_sa_pixel,
    is_gauge_sa, is_gauge_empty, cyanImage, cyanPixel, shortScan, Scanline.x_at,
    Scanline.width, rgb_to_hsv, rustRem, truncQ, abs_lt]

lemma cyan_read_eval : read_sa_value cyanImage quadProbes shortScan = some 1 := by
  simp only [read_sa_value, cyan_digit_eval, cyan_find_eval]
  norm_num

/-! Claim C1: special-gauge reading. -/

/-- C1 (amended): a recognized stock digit of 3 (including the CA overlay
case) yields exactly 3.0 independently of the bar scanline; a digit d below
3 yields d plus the bar fill ratio whenever a value is returned, and on a
positive-width scanline that value is at most d + 1 (equality is reached
when the bar scans fully Foreground, so the strict bound of the original
claim fails). -/
theorem c1_sa_value (image : Image) (probes : List (ℕ × ℕ)) (sa_scan sa_scan' : Scanline) :
    (classify_sa_digit image probes = some 3 →
      read_sa_value image probes sa_scan = some 3 ∧
      read_sa_value image probes sa_scan = read_sa_value image probes sa_scan') ∧
    (∀ d v, classify_sa_digit image probes = some d → d < 3 → 0 < sa_scan.width →
      read_sa_value image probes sa_scan = some v →
      (∃ fill, find_bar_boundary image sa_scan classify_sa_pixel = some fill ∧
        v = d + fill) ∧ v ≤ d + 1) := by
  constructor
  · intro h3
    constructor
    · simp [read_sa_value, h3]
    · simp [read_sa_value, h3]
  · intro d v hd hlt hw hv
    simp only [read_sa_value, hd] at hv
    rw [if_neg (by omega)] at hv
    cases hfind : find_bar_boundary image sa_scan classify_sa_pixel with
    | none => rw [hfind] at hv; exact absurd hv (by simp)
    | some fill =>
      rw [hfind] at hv
      have hv' : (d : ℚ) + fill = v := Option.some.inj hv
      have hbound := find_bar_boundary_mem_unit image sa_scan classify_sa_pixel hw fill hfind
      constructor
      · exact ⟨fill, rfl, hv'.symm⟩
      · rw [← hv']
        linarith [hbound.2]

/-- C1 counterexample: on the all-cyan frame the digit reads 0 and the SA
bar scans fully Foreground, so read_sa_value returns exactly 0 + 1.0; the
claimed strict bound value < digit + 1 is violated. -/
theorem c1_counterexample :
    classify_sa_digit cyanImage quadProbes = some 0 ∧
    read_sa_value cyanImage quadProbes shortScan = some 1 ∧
    ¬ ((1 : ℚ) < 0 + 1) := by
  refine ⟨cyan_digit_eval, cyan_read_eval, by norm_num⟩

/-- C1 witness: the amended theorem applied at the all-gold frame (digit 3
via the CA overlay) and at the all-cyan frame (digit 0, full bar). -/
theorem c1_witness :
    (read_sa_value goldImage quadProbes shortScan = some 3 ∧
      read_sa_value goldImage quadProbes shortScan = read_sa_value goldImage quadProbes altScan) ∧
    ((∃ fill, find_bar_boundary cyanImage shortScan classify_sa_pixel = some fill ∧
      (1 : ℚ) = 0 + fill) ∧ (1 : ℚ) ≤ 0 + 1) := by
  constructor
  · exact (c1_sa_value goldImage quadProbes shortScan altScan).1 gold_digit_eval
  · exact (c1_sa_value cyanImage quadProbes shortScan shortScan).2 0 1 cyan_digit_eval
      (by omega) (by decide) cyan_read_eval

/-- C4 witness: the theorem applied to the ramp frame, once with a
Foreground sample before the Unknown run and once without any. -/
theorem c4_witness :
    find_bar_boundary rampImage rampScan rampClassifierA = some ((0 + 1 : ℚ) / rampScan.width) ∧
    find_bar_boundary rampImage rampScan rampClassifierB = none := by
  constructor
  · exact (c4_unknown_then_background rampImage rampScan rampClassifierA 2 (by decide)
      (by decide) (by decide) (by decide) (by decide)).1 0 (by decide) (by decide)
      (by intro k h1 h2; interval_cases k; decide)
  · exact (c4_unknown_then_background rampImage rampScan rampClassifierB 1 (by decide)
      (by decide) (by decide) (by decide) (by decide)).2 (by decide)

/-- C5 witness: the theorem applied to the all-cyan frame, whose SA bar
scan returns exactly 1. -/
theorem c5_witness : 0 ≤ (1 : ℚ) ∧ (1 : ℚ) ≤ 1 :=
  c5_boundary_in_unit_interval cyanImage shortScan classify_sa_pixel 1 (by decide) (by decide)
    (by decide) cyan_find_eval

/-- C9 witness: the theorem applied to a constantly-Unknown classifier. -/
theorem c9_witness :
    find_bar_boundary cyanImage shortScan (fun _ => BarSegment.Unknown) = some 1 :=
  c9_all_unknown_gives_one cyanImage shortScan (fun _ => BarSegment.Unknown) (by decide)
    (by decide)

/-! Claims C3, C6, C10: drive-gauge reading. -/

lemma od_walk_reach (c : ℕ → OdSegmentState) :
    ∀ d i, i + d ≤ 6 → (∀ k, i ≤ k → k < i + d → ¬ od_trigger c k) →
      read_od_value_walk c (6 - i) i (od_pred_state c i) =
        read_od_value_walk c (6 - (i + d)) (i + d) (od_pred_state c (i + d)) := by
  intro d
  induction d with
  | zero => intro i _ _; rfl
  | succ d ih =>
    intro i h1 h2
    have hfuel : 6 - i = (6 - (i + 1)) + 1 := by omega
    have hnt : ¬ od_trigger c i := h2 i le_rfl (by omega)
    have step : read_od_value_walk c (6 - i) i (od_pred_state c i) =
        read_od_value_walk c (6 - (i + 1)) (i + 1) (od_pred_state c (i + 1)) := by
      rw [hfuel]
      cases hc : c i with
      | Full =>
        simp only [read_od_value_walk, hc]
        simp [od_pred_state, hc]
      | Empty =>
        have hpred : od_pred_state c i ≠ OdSegmentState.Full := fun h => hnt (Or.inl ⟨h, hc⟩)
        simp only [read_od_value_walk, hc, if_neg hpred]
        simp [od_pred_state, hc]
      | Part p => exact absurd (Or.inr ⟨p, hc⟩) hnt
      | Unknown =>
        simp only [read_od_value_walk, hc]
        simp [od_pred_state, hc]
    rw [step, show i + (d + 1) = (i + 1) + d by omega]
    exact ih (i + 1) (by omega) (fun k hk1 hk2 => h2 k (by omega) (by omega))

/-- C3 (amended): in the segment walk, the first segment that triggers a
return determines the value: Empty with a Full predecessor state yields
Normal(index), Part(p) yields Normal(index + p).  When no segment triggers,
the walk returns Normal(6.0) exactly when segment 5 classifies Full (in
particular when all six are Full), and None otherwise; so trailing Unknowns
after a Full segment 5 still yield Normal(6.0), against the original claim. -/
theorem c3_od_walk (c : ℕ → OdSegmentState) :
    (∀ j, j < 6 → (∀ k, k < j → ¬ od_trigger c k) →
      (od_pred_state c j = OdSegmentState.Full → c j = OdSegmentState.Empty →
        read_od_value_walk c 6 0 OdSegmentState.Full = some (OdValue.Normal (j : ℚ))) ∧
      (∀ p, c j = OdSegmentState.Part p →
        read_od_value_walk c 6 0 OdSegmentState.Full =
          some (OdValue.Normal ((j : ℚ) + p)))) ∧
    ((∀ k, k < 6 → ¬ od_trigger c k) →
      read_od_value_walk c 6 0 OdSegmentState.Full =
        (if c 5 = OdSegmentState.Full then some (OdValue.Normal 6) else none)) ∧
    ((∀ k, k < 6 → c k = OdSegmentState.Full) →
      read_od_value_walk c 6 0 OdSegmentState.Full = some (OdValue.Normal 6)) := by
  have hstart : read_od_value_walk c 6 0 OdSegmentState.Full =
      read_od_value_walk c (6 - 0) 0 (od_pred_state c 0) := rfl
  have hmain : ∀ j, j ≤ 6 → (∀ k, k < j → ¬ od_trigger c k) →
      read_od_value_walk c 6 0 OdSegmentState.Full =
        read_od_value_walk c (6 - j) j (od_pred_state c j) := by
    intro j hj hmin
    rw [hstart, od_walk_reach c j 0 (by omega) (fun k _ hk2 => hmin k (by omega))]
    simp
  refine ⟨?_, ?_, ?_⟩
  · intro j hj hmin
    have hreach := hmain j (by omega) hmin
    have hfuel : 6 - j = (6 - (j + 1)) + 1 := by omega
    constructor
    · intro hpred hempty
      rw [hreach, hfuel]
      simp [read_od_value_walk, hempty, hpred]
    · intro p hp
      rw [hreach, hfuel]
      simp only [read_od_value_walk, hp]
  · intro hall
    have hreach := hmain 6 le_rfl (fun k hk => hall k hk)
    rw [hreach]
    have hpred6 : od_pred_state c 6 = c 5 := rfl
    rw [hpred6]
    rfl
  · intro hfull
    have hnt : ∀ k, k < 6 → ¬ od_trigger c k := by
      intro k hk ht
      simp only [od_trigger] at ht
      rcases ht with ⟨-, hempty⟩ | ⟨p, hp⟩
      · rw [hfull k hk] at hempty
        exact nomatch hempty
      · rw [hfull k hk] at hp
        exact nomatch hp
    have hreach := hmain 6 le_rfl (fun k hk => hnt k hk)
    rw [hreach]
    have hpred6 : od_pred_state c 6 = c 5 := rfl
    rw [hpred6, hfull 5 (by omega)]
    rfl

/-- C3 counterexample: segments classified Unknown five times and then Full
trigger no early return and end with a Full last state, so the walk returns
Normal(6.0) although not all six segments are Full; the original claim says
every such combination is unreadable. -/
theorem c3_counterexample :
    read_od_value_walk tailFullSegs 6 0 OdSegmentState.Full = some (OdValue.Normal 6) ∧
    tailFullSegs 0 = OdSegmentState.Unknown ∧
    tailFullSegs 5 = OdSegmentState.Full := by
  refine ⟨rfl, rfl, rfl⟩

/-- C3 witness: the amended theorem applied to an Empty-after-Full walk, a
Part walk, and an all-Full walk. -/
theorem c3_witness :
    read_od_value_walk emptyAtTwoSegs 6 0 OdSegmentState.Full =
      some (OdValue.Normal ((2 : ℕ) : ℚ)) ∧
    read_od_value_walk partAtOneSegs 6 0 OdSegmentState.Full =
      some (OdValue.Normal (((1 : ℕ) : ℚ) + 1 / 2)) ∧
    read_od_value_walk allFullSegs 6 0 OdSegmentState.Full = some (OdValue.Normal 6) := by
  refine ⟨?_, ?_, ?_⟩
  · exact ((c3_od_walk emptyAtTwoSegs).1 2 (by omega)
      (by intro k hk; interval_cases k <;>
        simp [od_trigger, od_pred_state, emptyAtTwoSegs])).1 rfl rfl
  · exact ((c3_od_walk partAtOneSegs).1 1 (by omega)
      (by intro k hk; interval_cases k <;>
        simp [od_trigger, od_pred_state, partAtOneSegs])).2 (1 / 2) rfl
  · exact (c3_od_walk allFullSegs).2.2 (fun k _ => rfl)

/-- C6: whenever the burnout test holds on the selected OD gauge scanline,
read_od_value returns some Burnout value in [0, 1] (never None and never a
Normal value), and returns Burnout(0.0) when the boundary scan finds no
transition. -/
theorem c6_burnout_reading (image : Image) (player_one : Bool)
    (hb : is_burnout image (od_scanline player_one) = true) :
    (∃ r, read_od_value image player_one = some (OdValue.Burnout r) ∧ 0 ≤ r ∧ r ≤ 1) ∧
    (find_bar_boundary image (od_scanline player_one) classify_burnout_pixel = none →
      read_od_value image player_one = some (OdValue.Burnout 0)) := by
  have hread : read_od_value image player_one =
      read_burnout_recovery image (od_scanline player_one) := by
    simp only [read_od_value, hb, if_true]
  have hwpos : 0 < (od_scanline player_one).width := by
    cases player_one <;> decide
  constructor
  · cases hfind : find_bar_boundary image (od_scanline player_one) classify_burnout_pixel with
    | none =>
      refine ⟨0, ?_, le_refl 0, by norm_num⟩
      rw [hread]
      unfold read_burnout_recovery
      rw [hfind]
    | some fill =>
      have hb2 := find_bar_boundary_mem_unit image (od_scanline player_one)
        classify_burnout_pixel hwpos fill hfind
      refine ⟨fill, ?_, hb2.1, hb2.2⟩
      rw [hread]
      unfold read_burnout_recovery
      rw [hfind]
  · intro hnone
    rw [hread]
    unfold read_burnout_recovery
    rw [hnone]

lemma hsv_gray50 : rgb_to_hsv { r := 50, g := 50, b := 50 } =
    { h := 0, s := 0, v := 10 / 51 } := by
  norm_num [rgb_to_hsv, rustRem, truncQ]

lemma hsv_rose : rgb_to_hsv { r := 200, g := 180, b := 180 } =
    { h := 0, s := 1 / 10, v := 40 / 51 } := by
  norm_num [rgb_to_hsv, rustRem, truncQ, abs_lt]

lemma rose_burnout_class : classify_burnout_pixel { r := 200, g := 180, b := 180 } =
    BarSegment.Unknown := by
  norm_num [classify_burnout_pixel, hsv_rose, is_burnout_recovered, is_burnout_unrecovered]

lemma gray_burnout_class : classify_burnout_pixel { r := 50, g := 50, b := 50 } =
    BarSegment.Background := by
  norm_num [classify_burnout_pixel, hsv_gray50, is_burnout_recovered, is_burnout_unrecovered]

lemma gray_burnout_eval : is_burnout grayImage (od_scanline true) = true := by
  simp only [is_burnout, List.all_cons, List.all_nil, Bool.and_true]
  norm_num [grayImage, hsv_gray50]

lemma dusk_burnout_eval : is_burnout duskImage (od_scanline true) = true := by
  simp only [is_burnout, List.all_cons, List.all_nil, Bool.and_true]
  norm_num [duskImage, od_scanline, P1_OD_GAUGE, Scanline.width, Scanline.x_at, hsv_gray50]

lemma dusk_scan0 : scan_class duskImage (od_scanline true) classify_burnout_pixel 0 =
    BarSegment.Unknown := by
  simp only [scan_class, od_scanline]
  norm_num [Scanline.x_at, P1_OD_GAUGE, duskImage, rose_burnout_class]

lemma dusk_scan1 : scan_class duskImage (od_scanline true) classify_burnout_pixel 1 =
    BarSegment.Background := by
  simp only [scan_class, od_scanline]
  norm_num [Scanline.x_at, P1_OD_GAUGE, duskImage, gray_burnout_class]

lemma fbb_go_unknown_step (c : ℕ → BarSegment) (w fuel i : ℕ) (prev : BarSegment)
    (lastFg : Option ℕ) (h : c i = BarSegment.Unknown) :
    find_bar_boundary_go c w (fuel + 1) i prev lastFg =
      find_bar_boundary_go c w fuel (i + 1) BarSegment.Unknown lastFg := by
  simp only [find_bar_boundary_go, h]

lemma fbb_go_bg_after_unknown_none (c : ℕ → BarSegment) (w fuel i : ℕ)
    (h : c i = BarSegment.Background) :
    find_bar_boundary_go c w (fuel + 1) i BarSegment.Unknown none = none := by
  simp [find_bar_boundary_go, h]

lemma dusk_find_none_eval :
    find_bar_boundary duskImage (od_scanline true) classify_burnout_pixel = none := by
  show find_bar_boundary_go (scan_class duskImage (od_scanline true) classify_burnout_pixel)
    (od_scanline true).width ((od_scanline true).width + 1) 0 BarSegment.Foreground none = none
  rw [show (od_scanline true).width = 327 from rfl,
    show (327 : ℕ) + 1 = 326 + 1 + 1 from rfl,
    fbb_go_unknown_step _ _ _ _ _ _ dusk_scan0, Nat.zero_add,
    fbb_go_bg_after_unknown_none _ _ _ _ dusk_scan1]

/-- C6 witness: the theorem applied to the all-gray burnout frame and to the
two-tone frame whose boundary scan fails. -/
theorem c6_witness :
    (∃ r, read_od_value grayImage true = some (OdValue.Burnout r) ∧ 0 ≤ r ∧ r ≤ 1) ∧
    read_od_value duskImage true = some (OdValue.Burnout 0) := by
  constructor
  · exact (c6_burnout_reading grayImage true gray_burnout_eval).1
  · exact (c6_burnout_reading duskImage true dusk_burnout_eval).2 dusk_find_none_eval

/-- C10: when the gauge is not in burnout and segment 0 classifies Empty,
read_od_value returns Normal(0.0) immediately, because the walk initializes
its predecessor state to Full. -/
theorem c10_empty_first_segment (image : Image) (player_one : Bool)
    (hb : is_burnout image (od_scanline player_one) = false)
    (h0 : classify_od_segment image (seg_scanline (od_scanline player_one) 0) =
      OdSegmentState.Empty) :
    read_od_value image player_one = some (OdValue.Normal 0) := by
  simp only [read_od_value, hb, Bool.false_eq_true, if_false]
  rw [show (6 : ℕ) = 5 + 1 from rfl]
  simp only [read_od_value_walk, h0]
  simp

lemma blue_not_burnout_eval : is_burnout blueImage (od_scanline true) = false := by
  norm_num [is_burnout, od_scanline, P1_OD_GAUGE, Scanline.width, Scanline.x_at,
    blueImage, rgb_to_hsv, rustRem, truncQ, abs_lt]

lemma blue_seg0_empty_eval :
    classify_od_segment blueImage (seg_scanline (od_scanline true) 0) =
      OdSegmentState.Empty := by
  norm_num [classify_od_segment, is_segment_full_fast, is_segment_empty_fast,
    seg_scanline, od_scanline, P1_OD_GAUGE, OD_SEG_WIDTH, OD_GAP_WIDTH,
    OD_SEG_CEIL_OFFSET_Y, OD_SEG_FLOOR_OFFSET_Y, Scanline.first_pos, Scanline.last_pos,
    is_od_segment_full_border, is_od_segment_full_background, blueImage, rgb_to_hsv,
    rustRem, truncQ, abs_lt, List.filter]

/-- C10 witness: the theorem applied to the all-dark-blue frame, on which
segment 0 fast-classifies Empty and the burnout test fails. -/
theorem c10_witness : read_od_value blueImage true = some (OdValue.Normal 0) :=
  c10_empty_first_segment blueImage true blue_not_burnout_eval blue_seg0_empty_eval

/-! Claims C2, C7, C8: frame collection and round segmentation. -/

lemma collect_go_cons (sample_rate : ℕ) (f : FrameInput) (rest : List FrameInput)
    (lp1 lp2 : Option ℚ) (n : ℕ) :
    collect_frame_data_go sample_rate none (f :: rest) lp1 lp2 n =
      if f.frame_number % sample_rate ≠ 0 then
        collect_frame_data_go sample_rate none rest lp1 lp2 n
      else
        match opt_or f.hp_p1 lp1, opt_or f.hp_p2 lp2 with
        | some p1, some p2 =>
          { frame_number := f.frame_number, timestamp_seconds := f.timestamp_seconds,
              p1 := some p1, p2 := some p2 } ::
            collect_frame_data_go sample_rate none rest
              (if f.hp_p1.isSome then some p1 else lp1)
              (if f.hp_p2.isSome then some p2 else lp2) (n + 1)
        | _, _ => collect_frame_data_go sample_rate none rest lp1 lp2 n := by
  simp only [collect_frame_data_go]
  norm_num

lemma collect_go_not_none (sample_rate : ℕ) :
    ∀ (frames : List FrameInput) (lp1 lp2 : Option ℚ) (n : ℕ) (fd : FrameData),
      fd ∈ collect_frame_data_go sample_rate none frames lp1 lp2 n →
      fd.p1 ≠ none ∧ fd.p2 ≠ none := by
  intro frames
  induction frames with
  | nil => intro lp1 lp2 n fd hfd; exact absurd hfd (by simp [collect_frame_data_go])
  | cons f rest ih =>
    intro lp1 lp2 n fd hfd
    rw [collect_go_cons] at hfd
    by_cases hs : f.frame_number % sample_rate ≠ 0
    · rw [if_pos hs] at hfd
      exact ih lp1 lp2 n fd hfd
    · rw [if_neg hs] at hfd
      cases h1 : opt_or f.hp_p1 lp1 with
      | none =>
        rw [h1] at hfd
        exact ih lp1 lp2 n fd hfd
      | some p1 =>
        cases h2 : opt_or f.hp_p2 lp2 with
        | none =>
          rw [h1, h2] at hfd
          exact ih lp1 lp2 n fd hfd
        | some p2 =>
          rw [h1, h2] at hfd
          rcases List.mem_cons.mp hfd with rfl | hmem
          · exact ⟨by simp, by simp⟩
          · exact ih _ _ _ fd hmem

/-- C2 (amended): for a frame that passes sampling, with no frame cap: the
frame is omitted exactly when some side has neither a current reading nor a
value recorded from a previously emitted frame, with the carried state left
unchanged; otherwise it is emitted with the unreadable sides replaced by the
last emitted values, and the carried values are updated only from sides read
in this frame.  Every emitted record carries non-null health on both sides. -/
theorem c2_frame_collection (sample_rate : ℕ) (f : FrameInput) (rest : List FrameInput)
    (last_p1 last_p2 : Option ℚ) (cnt : ℕ)
    (hsampled : f.frame_number % sample_rate = 0) :
    (opt_or f.hp_p1 last_p1 = none ∨ opt_or f.hp_p2 last_p2 = none →
      collect_frame_data_go sample_rate none (f :: rest) last_p1 last_p2 cnt =
        collect_frame_data_go sample_rate none rest last_p1 last_p2 cnt) ∧
    (∀ p1 p2, opt_or f.hp_p1 last_p1 = some p1 → opt_or f.hp_p2 last_p2 = some p2 →
      collect_frame_data_go sample_rate none (f :: rest) last_p1 last_p2 cnt =
        { frame_number := f.frame_number, timestamp_seconds := f.timestamp_seconds,
            p1 := some p1, p2 := some p2 } ::
          collect_frame_data_go sample_rate none rest
            (if f.hp_p1.isSome then some p1 else last_p1)
            (if f.hp_p2.isSome then some p2 else last_p2) (cnt + 1)) ∧
    (∀ (frames : List FrameInput) (lp1 lp2 : Option ℚ) (n : ℕ) (fd : FrameData),
      fd ∈ collect_frame_data_go sample_rate none frames lp1 lp2 n →
      fd.p1 ≠ none ∧ fd.p2 ≠ none) := by
  have hstep : collect_frame_data_go sample_rate none (f :: rest) last_p1 last_p2 cnt =
      match opt_or f.hp_p1 last_p1, opt_or f.hp_p2 last_p2 with
      | some p1, some p2 =>
        { frame_number := f.frame_number, timestamp_seconds := f.timestamp_seconds,
            p1 := some p1, p2 := some p2 } ::
          collect_frame_data_go sample_rate none rest
            (if f.hp_p1.isSome then some p1 else last_p1)
            (if f.hp_p2.isSome then some p2 else last_p2) (cnt + 1)
      | _, _ => collect_frame_data_go sample_rate none rest last_p1 last_p2 cnt := by
    rw [collect_go_cons, if_neg (by simp [hsampled])]
  refine ⟨?_, ?_, collect_go_not_none sample_rate⟩
  · intro h
    rw [hstep]
    rcases h with h1 | h2
    · rw [h1]
    · rw [h2]
      cases opt_or f.hp_p1 last_p1 <;> rfl
  · intro p1 p2 h1 h2
    rw [hstep, h1, h2]

/-- C2 counterexample: with every frame sampled and no cap, the two-frame
input where first only P1 reads and then only P2 reads produces no records
at all: the first frame is dropped although P1 produced a reading there, and
that reading is never carried forward because the frame was not emitted. -/
theorem c2_counterexample :
    collect_frame_data 1 none [inputA, inputB] = [] ∧
    inputA.hp_p1 = some 1 ∧ inputB.hp_p2 = some 1 :=
  ⟨rfl, rfl, rfl⟩

/-- C2 witness: the amended theorem applied at the two concrete frames. -/
theorem c2_witness :
    collect_frame_data_go 1 none [inputA, inputB] none none 0 =
      collect_frame_data_go 1 none [inputB] none none 0 ∧
    collect_frame_data_go 1 none [inputB] (some (1 / 2)) none 0 =
      { frame_number := 1, timestamp_seconds := 0,
          p1 := some (1 / 2), p2 := some 1 } ::
        collect_frame_data_go 1 none [] (if inputB.hp_p1.isSome then some (1 / 2) else some (1 / 2))
          (if inputB.hp_p2.isSome then some 1 else none) 1 := by
  constructor
  · exact (c2_frame_collection 1 inputA [inputB] none none 0 rfl).1 (Or.inr rfl)
  · exact (c2_frame_collection 1 inputB [] (some (1 / 2)) none 0 rfl).2.1 (1 / 2) 1 rfl rfl

lemma split_go_closed :
    ∀ (l : List FrameData) (closed : List (List FrameData)) (cur : List FrameData)
      (had : Bool),
      split_into_rounds_go l closed cur had =
        closed ++ split_into_rounds_go l [] cur had := by
  intro l
  induction l with
  | nil => intro closed cur had; simp [split_into_rounds_go]
  | cons fd rest ih =>
    intro closed cur had
    simp only [split_into_rounds_go, List.nil_append]
    by_cases hr : ((had || damagedB fd) && recoveredB fd) = true
    · rw [if_pos hr, if_pos hr, ih (closed ++ [cur]), ih [cur]]
      simp [List.append_assoc]
    · rw [if_neg hr, if_neg hr, ih closed, ih []]

lemma split_go_flatten :
    ∀ (l : List FrameData) (closed : List (List FrameData)) (cur : List FrameData)
      (had : Bool),
      (split_into_rounds_go l closed cur had).flatten = closed.flatten ++ cur ++ l := by
  intro l
  induction l with
  | nil => intro closed cur had; simp [split_into_rounds_go]
  | cons fd rest ih =>
    intro closed cur had
    simp only [split_into_rounds_go]
    by_cases hr : ((had || damagedB fd) && recoveredB fd) = true
    · rw [if_pos hr, ih]
      simp
    · rw [if_neg hr, ih]
      simp

lemma split_go_first :
    ∀ (l : List FrameData) (cur : List FrameData) (had : Bool), cur ≠ [] →
      ∃ t rest, split_into_rounds_go l [] cur had = (cur ++ t) :: rest := by
  intro l
  induction l with
  | nil =>
    intro cur had _
    exact ⟨[], [], by simp [split_into_rounds_go]⟩
  | cons fd rest ih =>
    intro cur had hcur
    simp only [split_into_rounds_go]
    by_cases hr : ((had || damagedB fd) && recoveredB fd) = true
    · rw [if_pos hr, split_go_closed]
      exact ⟨[], split_into_rounds_go rest [] [fd] false, by simp⟩
    · rw [if_neg hr]
      obtain ⟨t, rest', heq⟩ := ih (cur ++ [fd]) ((had || damagedB fd)) (by simp)
      exact ⟨[fd] ++ t, rest', by rw [heq]; simp⟩

lemma split_go_no_damage_walk :
    ∀ (a l cur : List FrameData), (∀ fd ∈ a, damagedB fd = false) →
      split_into_rounds_go (a ++ l) [] cur false =
        split_into_rounds_go l [] (cur ++ a) false := by
  intro a
  induction a with
  | nil => intro l cur _; simp
  | cons fd a' ih =>
    intro l cur h
    have hfd : damagedB fd = false := h fd (by simp)
    rw [List.cons_append]
    simp only [split_into_rounds_go, hfd, Bool.or_false, Bool.false_and,
      Bool.false_eq_true, if_false, List.nil_append]
    rw [ih l (cur ++ [fd]) (fun x hx => h x (by simp [hx]))]
    simp [List.append_assoc]

lemma split_go_no_recovery_walk :
    ∀ (b l cur : List FrameData) (had : Bool), (∀ fd ∈ b, recoveredB fd = false) →
      split_into_rounds_go (b ++ l) [] cur had =
        split_into_rounds_go l [] (cur ++ b) (had || b.any damagedB) := by
  intro b
  induction b with
  | nil => intro l cur had _; simp
  | cons fd b' ih =>
    intro l cur had h
    have hfd : recoveredB fd = false := h fd (by simp)
    rw [List.cons_append]
    simp only [split_into_rounds_go, hfd, Bool.and_false,
      Bool.false_eq_true, if_false, List.nil_append]
    rw [ih l (cur ++ [fd]) (had || damagedB fd) (fun x hx => h x (by simp [hx]))]
    simp [Bool.or_assoc, List.append_assoc]

lemma flatten_filter_nonempty (l : List (List FrameData)) :
    (l.filter (fun r => !r.isEmpty)).flatten = l.flatten := by
  induction l with
  | nil => rfl
  | cons r tl ih =>
    rw [List.filter_cons]
    by_cases h : r.isEmpty
    · have hr : r = [] := List.isEmpty_iff.mp h
      subst hr
      simpa using ih
    · have : (!r.isEmpty) = true := by simp [h]
      rw [if_pos this]
      simp [ih]

/-- C8: every round returned by split_into_rounds is non-empty, and the
concatenation of the rounds in order is exactly the input sequence. -/
theorem c8_rounds_partition (frames : List FrameData)
    (hwf : ∀ fd ∈ frames, fd.p1.isSome ∧ fd.p2.isSome) :
    (∀ r ∈ split_into_rounds frames, r ≠ []) ∧
    (split_into_rounds frames).flatten = frames := by
  constructor
  · intro r hr
    by_cases he : frames.isEmpty = true
    · simp [split_into_rounds, he] at hr
    · simp only [split_into_rounds, if_neg he] at hr
      have h2 := (List.mem_filter.mp hr).2
      simpa [List.isEmpty_eq_false] using h2
  · by_cases he : frames.isEmpty = true
    · have h0 : frames = [] := List.isEmpty_iff.mp he
      subst h0
      simp [split_into_rounds]
    · simp only [split_into_rounds, if_neg he]
      rw [flatten_filter_nonempty, split_go_flatten]
      simp

/-- C8 witness: the theorem applied to the concrete five-frame scenario. -/
theorem c8_witness :
    (∀ r ∈ split_into_rounds scenarioFrames, r ≠ []) ∧
    (split_into_rounds scenarioFrames).flatten = scenarioFrames := by
  refine c8_rounds_partition scenarioFrames ?_
  intro fd hfd
  simp only [scenarioFrames, mkFd, List.mem_cons, List.not_mem_nil, or_false] at hfd
  rcases hfd with rfl | rfl | rfl | rfl | rfl <;> simp

/-- C7: the empty sequence yields zero rounds; a non-empty sequence with no
health below the damage threshold yields one round holding all frames; when
undamaged leading frames are followed by frames containing damage but no recovery
and then a frame with both sides at or above the reset threshold, a new
round starts exactly at that recovery frame, which belongs to the new round;
and the concrete five-frame scenario splits into rounds of lengths 3 and 2. -/
theorem c7_round_segmentation :
    split_into_rounds ([] : List FrameData) = [] ∧
    (∀ frames : List FrameData, frames ≠ [] →
      (∀ fd ∈ frames, fd.p1.isSome ∧ fd.p2.isSome) →
      (∀ fd ∈ frames, damagedB fd = false) →
      split_into_rounds frames = [frames]) ∧
    (∀ (a b : List FrameData) (rec : FrameData) (post : List FrameData),
      (∀ fd ∈ a ++ b ++ rec :: post, fd.p1.isSome ∧ fd.p2.isSome) →
      (∀ fd ∈ a, damagedB fd = false) →
      (∃ fd ∈ b, damagedB fd = true) →
      (∀ fd ∈ b, recoveredB fd = false) →
      recoveredB rec = true →
      ∃ t rest, split_into_rounds (a ++ b ++ rec :: post) =
        (a ++ b) :: (rec :: t) :: rest) ∧
    split_into_rounds scenarioFrames =
      [[mkFd 0 1 1, mkFd 1 (6 / 10) (3 / 10), mkFd 2 (8 / 10) 0],
        [mkFd 3 1 1, mkFd 4 (9 / 10) (8 / 10)]] := by
  refine ⟨by simp [split_into_rounds], ?_, ?_, ?_⟩
  · intro frames hne hwf hnd
    have he : frames.isEmpty = false := List.isEmpty_eq_false.mpr hne
    simp only [split_into_rounds, he, Bool.false_eq_true, if_false]
    have h1 := split_go_no_damage_walk frames [] [] hnd
    rw [List.append_nil, List.nil_append] at h1
    rw [h1]
    simp only [split_into_rounds_go, List.nil_append]
    rw [List.filter_cons, if_pos (by simpa [List.isEmpty_eq_false] using hne)]
    rfl
  · intro a b rec post hwf hnd hdmg hnr hrec
    obtain ⟨fdmg, hmem, hfdmg⟩ := hdmg
    have hne : a ++ b ++ rec :: post ≠ [] := by simp
    have he : (a ++ b ++ rec :: post).isEmpty = false := List.isEmpty_eq_false.mpr hne
    simp only [split_into_rounds, he, Bool.false_eq_true, if_false]
    rw [List.append_assoc, split_go_no_damage_walk a (b ++ rec :: post) [] hnd,
      List.nil_append, split_go_no_recovery_walk b (rec :: post) a false hnr,
      List.any_eq_true.mpr ⟨fdmg, hmem, hfdmg⟩]
    simp only [split_into_rounds_go, Bool.false_or, Bool.true_or, Bool.true_and, hrec,
      if_true, List.nil_append]
    rw [split_go_closed]
    obtain ⟨t, rest, hfirst⟩ := split_go_first post [rec] false (by simp)
    rw [hfirst]
    have hb : b ≠ [] := by
      intro hcon
      rw [hcon] at hmem
      exact absurd hmem (List.not_mem_nil fdmg)
    have hab : a ++ b ≠ [] := by
      intro hcon
      exact hb (List.append_eq_nil.mp hcon).2
    refine ⟨t, rest.filter (fun r => !r.isEmpty), ?_⟩
    rw [List.singleton_append, List.filter_cons, List.filter_cons]
    rw [if_pos (by simpa [List.isEmpty_eq_false] using hab),
      if_pos (by simp)]
    simp
  · norm_num [split_into_rounds, split_into_rounds_go, scenarioFrames, mkFd, damagedB,
      recoveredB, health_p1, health_p2, DAMAGE_THRESHOLD, ROUND_RESET_THRESHOLD,
      List.filter]

/-- C7 witness: the theorem applied to a one-frame undamaged sequence and to
the five-frame scenario decomposed around its recovery frame. -/
theorem c7_witness :
    split_into_rounds [mkFd 0 1 1] = [[mkFd 0 1 1]] ∧
    (∃ t rest, split_into_rounds ([mkFd 0 1 1] ++
        [mkFd 1 (6 / 10) (3 / 10), mkFd 2 (8 / 10) 0] ++
        mkFd 3 1 1 :: [mkFd 4 (9 / 10) (8 / 10)]) =
      ([mkFd 0 1 1] ++ [mkFd 1 (6 / 10) (3 / 10), mkFd 2 (8 / 10) 0]) ::
        (mkFd 3 1 1 :: t) :: rest) := by
  constructor
  · refine c7_round_segmentation.2.1 [mkFd 0 1 1] (by simp) ?_ ?_
    · intro fd hfd
      simp only [List.mem_cons, List.not_mem_nil, or_false] at hfd
      subst hfd
      simp [mkFd]
    · intro fd hfd
      simp only [List.mem_cons, List.not_mem_nil, or_false] at hfd
      subst hfd
      norm_num [damagedB, mkFd, health_p1, health_p2, DAMAGE_THRESHOLD]
  · refine c7_round_segmentation.2.2.1 [mkFd 0 1 1]
      [mkFd 1 (6 / 10) (3 / 10), mkFd 2 (8 / 10) 0] (mkFd 3 1 1)
      [mkFd 4 (9 / 10) (8 / 10)] ?_ ?_ ?_ ?_ ?_
    · intro fd hfd
      simp only [List.mem_append, List.mem_cons, List.not_mem_nil, or_false] at hfd
      rcases hfd with (rfl | rfl | rfl) | rfl | rfl <;> simp [mkFd]
    · intro fd hfd
      simp only [List.mem_cons, List.not_mem_nil, or_false] at hfd
      subst hfd
      norm_num [damagedB, mkFd, health_p1, health_p2, DAMAGE_THRESHOLD]
    · refine ⟨mkFd 2 (8 / 10) 0, by simp, ?_⟩
      norm_num [damagedB, mkFd, health_p1, health_p2, DAMAGE_THRESHOLD]
    · intro fd hfd
      simp only [List.mem_cons, List.not_mem_nil, or_false] at hfd
      rcases hfd with rfl | rfl <;>
        norm_num [recoveredB, mkFd, health_p1, health_p2, ROUND_RESET_THRESHOLD]
    · norm_num [recoveredB, mkFd, health_p1, health_p2, ROUND_RESET_THRESHOLD]

end Recmari
